import Mathlib

/-!
# Verification of the invoice-mapper pipeline (src/index.ts)

Shallow embedding of the single-file TypeScript program:
`readInvoices`, `extractInvoiceData` (schema-constrained generation with
retry), `writeToCSV` and `main`.

External collaborators (the filesystem, the pdf parser, the generation
service, the write stream) are modelled as explicit oracles passed in as
arguments; everything else is translated directly from the source.

JSON values carry only the shapes the program uses: strings, numbers and
null.  The program performs no arithmetic on numbers, it only carries and
serializes them, so JSON numbers are modelled as rationals.
-/

set_option autoImplicit false

namespace InvoiceMapper

instance {ε α : Type} [DecidableEq ε] [DecidableEq α] : DecidableEq (Except ε α) := fun x y =>
  match x, y with
  | .ok a, .ok b =>
      if h : a = b then .isTrue (by rw [h])
      else .isFalse (by intro hc; cases hc; exact h rfl)
  | .error a, .error b =>
      if h : a = b then .isTrue (by rw [h])
      else .isFalse (by intro hc; cases hc; exact h rfl)
  | .ok _, .error _ => .isFalse (by intro hc; cases hc)
  | .error _, .ok _ => .isFalse (by intro hc; cases hc)

/-- A JSON value as the program manipulates it: string, number, or null. -/
inductive Value where
  | str (s : String)
  | num (q : ℚ)
  | null
  deriving DecidableEq, Repr

/-- A JSON object (the generation service's response, a CSV row record):
an association list from keys to values, first binding wins on lookup. -/
abbrev RawObj := List (String × Value)

/-- First-match lookup of a key in an object, as JS property access. -/
def lookupV : RawObj → String → Option Value
  | [], _ => none
  | (k, v) :: rest, key => if k = key then some v else lookupV rest key

/-- `{...o, k: v}` — the JS object spread that overwrites key `k` with `v`
(used by `main` for `fileName` and by `writeToCSV` for the csv row). -/
def setKey (o : RawObj) (k : String) (v : Value) : RawObj :=
  o.filter (fun p => p.1 ≠ k) ++ [(k, v)]

/-- JS falsiness restricted to the values that occur here:
the empty string, the number 0 and null are falsy. -/
def isFalsy : Value → Bool
  | .str "" => true
  | .num q => q = 0
  | .null => true
  | .str _ => false

/-- The two semantic types the zod schema declares: `z.string()` and
`z.number()`. -/
inductive SType where
  | str
  | num
  deriving DecidableEq, Repr

/-- Runtime type check of a value against a declared semantic type
(what `z.string()` / `z.number()` actually verify on a parsed value). -/
def valueHasType : Value → SType → Bool
  | .str _, .str => true
  | .num _, .num => true
  | _, _ => false

/-- One field descriptor of the zod schema: name, semantic type, and the
`.describe(...)` text that is sent to the model (the description steers
generation but is not checked by validation). -/
structure FieldDesc where
  name : String
  ty : SType
  descr : String
  deriving DecidableEq, Repr

/-- The `z.object({...})` schema of `extractInvoiceData`, fields in source
order, with the source's `.describe` strings. -/
def invoiceSchema : List FieldDesc :=
  [ ⟨"invoiceNumber", .str,
      "The unique identifier for this invoice, avoid special characters like # and * and \\x"⟩,
    ⟨"issueDate", .str, "The date when the invoice was issued"⟩,
    ⟨"companyName", .str, "The name of the company that issued the invoice"⟩,
    ⟨"companyAddress", .str, "The address of the company that issued the invoice"⟩,
    ⟨"dueDate", .str, "The date by which the invoice should be paid"⟩,
    ⟨"totalAmount", .num, "The total amount due on the invoice"⟩,
    ⟨"currency", .str, "The currency used in the invoice"⟩,
    ⟨"customerName", .str, "The name of the customer or company being billed"⟩,
    ⟨"customerAddress", .str, "The billing address of the customer"⟩,
    ⟨"taxes", .num,
      "The total amount of taxes applied to the invoice, just return 0 if no taxes are applied"⟩ ]

/-- Schema validation of a response object: every declared field must be
present with a value of its declared semantic type.  This is the whole
post-condition the zod schema enforces; `.describe` texts are not checked. -/
def validateObject (o : RawObj) : Bool :=
  invoiceSchema.all (fun f =>
    match lookupV o f.name with
    | some v => valueHasType v f.ty
    | none => false)

/-- A generation-service oracle: given the attempt index, either an error
(network failure, malformed response) or a parsed response object. -/
abbrev GenAttempt := Nat → Except String RawObj

/-- A generation service keyed by the prompt's document content:
`extractInvoiceData` embeds the document text into the prompt. -/
abbrev GenService := String → GenAttempt

/-- Modelled from the spec: one attempt of the schema-constrained
generation call of the external `generateObject` (the `ai` library) —
invoke the service, then validate the response against the zod schema; an
invalid response is a (retryable) validation error. -/
def attemptOnce (gen : GenAttempt) (i : Nat) : Except String RawObj :=
  match gen i with
  | .error e => .error e
  | .ok o =>
      if validateObject o then .ok o
      else .error ("schema validation failed on attempt " ++ toString i)

/-- Modelled from the spec: the bounded retry loop of the external
`generateObject` call (the `ai` library; the source only configures
`maxRetries: 8`).  Per the spec, the call is retried with the same inputs
up to a fixed bound of 8 attempts; on exhaustion the last underlying
error is returned. -/
def retryGenerate (gen : GenAttempt) (i : Nat) : Nat → Except String RawObj
  | 0 => .error "no attempts configured"
  | fuel + 1 =>
      match attemptOnce gen i with
      | .ok o => .ok o
      | .error e =>
          match fuel with
          | 0 => .error e
          | _ + 1 => retryGenerate gen (i + 1) fuel

/-- The retry bound from the source: `maxRetries: 8`. -/
def maxRetries : Nat := 8

/-- `extractInvoiceData(invoiceContent)`: issue the schema-constrained
generation request for this document's text, with the bounded retry; the
`catch` block rethrows the error unchanged.  Note the function receives
only the document content — no document identifier. -/
def extractInvoiceData (gen : GenService) (invoiceContent : String) :
    Except String RawObj :=
  retryGenerate (gen invoiceContent) 0 maxRetries

/-- A loaded document: `{ content, fileName, filePath }` as built by
`readInvoices`. -/
structure SourceDocument where
  content : String
  fileName : String
  filePath : String
  deriving DecidableEq, Repr

/-- `path.extname`: the substring from the last `.` of the name to its
end; empty when there is no dot or the only dot starts the name.
Helper: the suffix starting at the last `.` of the character list. -/
def extSuffix : List Char → Option (List Char)
  | [] => none
  | c :: rest =>
      match extSuffix rest with
      | some s => some s
      | none => if c = '.' then some (c :: rest) else none

/-- `path.extname(file)` for a plain file name (no path separators). -/
def extname (f : String) : String :=
  match f.toList with
  | [] => ""
  | _ :: rest =>
      match extSuffix rest with
      | some s => String.mk s
      | none => ""

/-- `String.prototype.toLowerCase()` restricted to ASCII, character by
character. -/
def toLowerCase (s : String) : String :=
  String.mk (s.toList.map Char.toLower)

/-- The filter of `readInvoices`:
`path.extname(file).toLowerCase() === ".pdf"`. -/
def pdfExtension (f : String) : Bool :=
  toLowerCase (extname f) == ".pdf"

/-- The invoices directory `path.join(__dirname, "..", "invoices")`,
kept abstract as its relative form. -/
def invoiceDir : String := "invoices"

/-- `readInvoices()`: filter the directory listing to `.pdf` files
(case-insensitive extension), then read and pdf-parse each file in
listing order.  `parse` is the oracle for `fs.readFile` + `pdf(...)` on
one file; its failure propagates (the loop is not guarded). -/
def readInvoices (listing : List String) (parse : String → Except String String) :
    Except String (List SourceDocument) :=
  (listing.filter pdfExtension).mapM (fun file =>
    (parse file).map (fun text =>
      { content := text, fileName := file, filePath := invoiceDir ++ "/" ++ file }))

/-- The extraction loop of `main`: for each document, attempt extraction;
on success push `{...data, fileName: invoice.fileName}` (the spread
overwrites any model-supplied `fileName`); on failure log and continue. -/
def processInvoices (gen : GenService) (docs : List SourceDocument) : List RawObj :=
  docs.filterMap (fun d =>
    match extractInvoiceData gen d.content with
    | .ok data => some (setKey data "fileName" (.str d.fileName))
    | .error _ => none)

/-- The fixed column order passed to `stringify` in `writeToCSV`. -/
def columns : List String :=
  [ "fileName", "invoiceNumber", "issueDate", "companyName", "companyAddress",
    "dueDate", "totalAmount", "currency", "customerName", "customerAddress",
    "taxes" ]

/-- Serialization of one cell value (escaping is the csv library's
concern, outside this model). -/
def cellToString : Value → String
  | .str s => s
  | .num q => toString q
  | .null => ""

/-- `row.fileName || ""`: the record's `fileName` if present and truthy,
otherwise the empty string. -/
def fileNameOr (row : RawObj) : Value :=
  match lookupV row "fileName" with
  | none => .str ""
  | some v => if isFalsy v then .str "" else v

/-- One cell of the emitted row: the csv row is
`{...row, fileName: row.fileName || ""}` and the stringifier picks each
column by name, empty when absent. -/
def csvCell (row : RawObj) (c : String) : String :=
  match lookupV (setKey row "fileName" (fileNameOr row)) c with
  | some v => cellToString v
  | none => ""

/-- One emitted row: the columns, in the fixed order, of the row record. -/
def csvRow (row : RawObj) : List String :=
  columns.map (csvCell row)

/-- `writeToCSV(data, ...)` with `header: false`: one row per record, no
header row.  The rows as they reach the write stream. -/
def writeToCSV (data : List RawObj) : List (List String) :=
  data.map csvRow

/-- `main()`: read the invoices, extract each, write the csv.  The outer
`try`/`catch` catches any error from `readInvoices` or the write and
only logs it — the run then ends without (valid) output, modelled as
`.error`.  `write` is the oracle for the write stream. -/
def runMain (readdirResult : Except String (List String))
    (parse : String → Except String String) (gen : GenService)
    (write : List (List String) → Except String Unit) :
    Except String (List (List String)) :=
  match readdirResult with
  | .error e => .error e
  | .ok listing =>
      match readInvoices listing parse with
      | .error e => .error e
      | .ok docs =>
          let rows := writeToCSV (processInvoices gen docs)
          match write rows with
          | .error e => .error e
          | .ok _ => .ok rows

/-- Modelled from the spec: lexicographic order on file names
("lexicographic by filename"), by code points. -/
def lexLeChars : List Char → List Char → Bool
  | [], _ => true
  | _ :: _, [] => false
  | a :: as, b :: bs =>
      if a < b then true
      else if b < a then false
      else lexLeChars as bs

/-- Lexicographic comparison of two file names. -/
def lexLe (a b : String) : Bool :=
  lexLeChars a.toList b.toList

/-- A schema-conformant generation response, used as a concrete service
reply in witnesses. -/
def sampleObj : RawObj :=
  [ ("invoiceNumber", .str "INV-001"), ("issueDate", .str "2024-01-01"),
    ("companyName", .str "Acme"), ("companyAddress", .str "1 Road"),
    ("dueDate", .str "2024-02-01"), ("totalAmount", .num 150),
    ("currency", .str "EUR"), ("customerName", .str "Bob"),
    ("customerAddress", .str "2 Road"), ("taxes", .num 0) ]

/-- A response whose `taxes` is the number `-1`: type-correct for the
schema, since `z.number()` does not constrain the sign. -/
def negTaxObj : RawObj :=
  [ ("invoiceNumber", .str "INV-002"), ("issueDate", .str "2024-01-02"),
    ("companyName", .str "Acme"), ("companyAddress", .str "1 Road"),
    ("dueDate", .str "2024-02-02"), ("totalAmount", .num 99),
    ("currency", .str "EUR"), ("customerName", .str "Bob"),
    ("customerAddress", .str "2 Road"), ("taxes", .num (-1)) ]

/-- A response whose `invoiceNumber` contains the characters `#` and `*`
that the field description forbids: still type-correct for the schema. -/
def specialCharObj : RawObj :=
  [ ("invoiceNumber", .str "#INV*001"), ("issueDate", .str "2024-01-03"),
    ("companyName", .str "Acme"), ("companyAddress", .str "1 Road"),
    ("dueDate", .str "2024-02-03"), ("totalAmount", .num 10),
    ("currency", .str "EUR"), ("customerName", .str "Bob"),
    ("customerAddress", .str "2 Road"), ("taxes", .num 2) ]

/-- A response with an arbitrary `invoiceNumber` string and otherwise
fixed conformant fields. -/
def responseWithInvoiceNumber (s : String) : RawObj :=
  ("invoiceNumber", Value.str s) ::
  [ ("issueDate", .str "2024-01-04"), ("companyName", .str "Acme"),
    ("companyAddress", .str "1 Road"), ("dueDate", .str "2024-02-04"),
    ("totalAmount", .num 20), ("currency", .str "EUR"),
    ("customerName", .str "Bob"), ("customerAddress", .str "2 Road"),
    ("taxes", .num 0) ]

/-- A generation service that fails every attempt with the same error. -/
def genFailService : GenService := fun _ _ => .error "gen failure"

/-- A generation service that succeeds (with `sampleObj`) only for the
document content `"good"`. -/
def genMixedService : GenService := fun content _ =>
  if content = "good" then .ok sampleObj else .error "gen failure"

/-! ## Association-list lemmas -/

theorem lookupV_append (l1 l2 : RawObj) (k : String) :
    lookupV (l1 ++ l2) k =
      match lookupV l1 k with
      | some v => some v
      | none => lookupV l2 k := by
  induction l1 with
  | nil => simp [lookupV]
  | cons p rest ih =>
      by_cases h : p.1 = k <;> simp [lookupV, h, ih]

theorem lookupV_filter_self (o : RawObj) (k : String) :
    lookupV (o.filter (fun p => p.1 ≠ k)) k = none := by
  induction o with
  | nil => rfl
  | cons p rest ih =>
      by_cases h : p.1 = k
      · simpa [List.filter, h] using ih
      · simpa [List.filter, h, lookupV] using ih

theorem lookupV_filter_other (o : RawObj) (k k2 : String) (h : k2 ≠ k) :
    lookupV (o.filter (fun p => p.1 ≠ k)) k2 = lookupV o k2 := by
  induction o with
  | nil => rfl
  | cons p rest ih =>
      by_cases hp : p.1 = k
      · have hne : p.1 ≠ k2 := by rw [hp]; exact fun hc => h hc.symm
        simp only [decide_not] at ih
        simp [List.filter, hp, lookupV, hne, Ne.symm h, ih]
      · simp only [decide_not] at ih
        by_cases hk2 : p.1 = k2 <;> simp [List.filter, hp, lookupV, hk2, h, ih]

theorem lookupV_setKey_self (o : RawObj) (k : String) (v : Value) :
    lookupV (setKey o k v) k = some v := by
  unfold setKey
  rw [lookupV_append, lookupV_filter_self]
  simp [lookupV]

theorem lookupV_setKey_other (o : RawObj) (k k2 : String) (v : Value) (h : k2 ≠ k) :
    lookupV (setKey o k v) k2 = lookupV o k2 := by
  unfold setKey
  rw [lookupV_append, lookupV_filter_other o k k2 h]
  cases hl : lookupV o k2 with
  | some w => rfl
  | none => simp [lookupV, Ne.symm h]

/-! ## Validation and retry lemmas -/

theorem validateObject_conforms {o : RawObj} (h : validateObject o = true) :
    ∀ f ∈ invoiceSchema, ∃ v, lookupV o f.name = some v ∧ valueHasType v f.ty = true := by
  intro f hf
  have h2 := List.all_eq_true.mp h f hf
  cases hlk : lookupV o f.name with
  | none => rw [hlk] at h2; exact absurd h2 (by simp)
  | some v => rw [hlk] at h2; exact ⟨v, rfl, h2⟩

theorem attemptOnce_ok {gen : GenAttempt} {i : Nat} {o : RawObj}
    (h : attemptOnce gen i = .ok o) : validateObject o = true := by
  unfold attemptOnce at h
  cases hg : gen i with
  | error e => rw [hg] at h; cases h
  | ok o2 =>
      rw [hg] at h
      dsimp only at h
      split at h
      next hv =>
        cases h
        exact hv
      next hv => cases h

theorem retryGenerate_ok {gen : GenAttempt} {o : RawObj} :
    ∀ {fuel i : Nat}, retryGenerate gen i fuel = .ok o → validateObject o = true := by
  intro fuel
  induction fuel with
  | zero => intro i h; cases h
  | succ n ih =>
      intro i h
      unfold retryGenerate at h
      cases ha : attemptOnce gen i with
      | ok o2 =>
          rw [ha] at h
          cases h
          exact attemptOnce_ok ha
      | error e =>
          rw [ha] at h
          cases n with
          | zero => cases h
          | succ m => exact ih h

theorem extract_ok_validate {gen : GenService} {content : String} {data : RawObj}
    (h : extractInvoiceData gen content = .ok data) : validateObject data = true :=
  retryGenerate_ok h

theorem retryGenerate_all_fail (gen : GenAttempt) (e : Nat → String) :
    ∀ (fuel i : Nat), 0 < fuel →
      (∀ j, j < fuel → attemptOnce gen (i + j) = .error (e (i + j))) →
      retryGenerate gen i fuel = .error (e (i + fuel - 1)) := by
  intro fuel
  induction fuel with
  | zero => intro i h; omega
  | succ n ih =>
      intro i _ hall
      unfold retryGenerate
      have h0 : attemptOnce gen i = .error (e i) := by
        simpa using hall 0 (by omega)
      rw [h0]
      cases n with
      | zero => simp
      | succ m =>
          have h4 : i + (m + 1 + 1) - 1 = i + 1 + (m + 1) - 1 := by omega
          rw [h4]
          exact ih (i + 1) (by omega) (fun j hj => by
            have h2 := hall (j + 1) (by omega)
            have h3 : i + 1 + j = i + (j + 1) := by omega
            rw [h3]
            exact h2)

theorem retryGenerate_first_ok (gen : GenAttempt) (e : Nat → String) (o : RawObj) :
    ∀ (fuel i k : Nat), k < fuel →
      (∀ j, j < k → attemptOnce gen (i + j) = .error (e (i + j))) →
      attemptOnce gen (i + k) = .ok o →
      retryGenerate gen i fuel = .ok o := by
  intro fuel
  induction fuel with
  | zero => intro i k h; omega
  | succ n ih =>
      intro i k hk hfail hok
      unfold retryGenerate
      cases hk0 : k with
      | zero =>
          rw [hk0] at hok
          have hok2 : attemptOnce gen i = .ok o := by simpa using hok
          rw [hok2]
      | succ k2 =>
          have h0 : attemptOnce gen i = .error (e i) := by
            simpa using hfail 0 (by omega)
          rw [h0]
          cases n with
          | zero => omega
          | succ m =>
              apply ih (i + 1) k2 (by omega)
              · intro j hj
                have h2 := hfail (j + 1) (by omega)
                have h3 : i + 1 + j = i + (j + 1) := by omega
                rw [h3]
                exact h2
              · have h5 : i + 1 + k2 = i + k := by omega
                rw [h5]
                exact hok

/-! ## Batch lemmas -/

theorem mem_processInvoices {gen : GenService} {docs : List SourceDocument} {r : RawObj}
    (h : r ∈ processInvoices gen docs) :
    ∃ d ∈ docs, ∃ data, extractInvoiceData gen d.content = .ok data ∧
      r = setKey data "fileName" (.str d.fileName) := by
  unfold processInvoices at h
  rcases List.mem_filterMap.mp h with ⟨d, hd, hsome⟩
  refine ⟨d, hd, ?_⟩
  cases he : extractInvoiceData gen d.content with
  | ok data =>
      rw [he] at hsome
      exact ⟨data, rfl, by cases hsome; rfl⟩
  | error e => rw [he] at hsome; cases hsome

theorem schema_names_not_fileName : ∀ f ∈ invoiceSchema, f.name ≠ "fileName" := by decide

theorem mem_processInvoices_conforms {gen : GenService} {docs : List SourceDocument}
    {r : RawObj} (h : r ∈ processInvoices gen docs) :
    ∀ f ∈ invoiceSchema, ∃ v, lookupV r f.name = some v ∧ valueHasType v f.ty = true := by
  rcases mem_processInvoices h with ⟨d, _, data, he, hr⟩
  intro f hf
  rcases validateObject_conforms (extract_ok_validate he) f hf with ⟨v, hlk, hty⟩
  refine ⟨v, ?_, hty⟩
  rw [hr, lookupV_setKey_other data "fileName" f.name (.str d.fileName)
    (schema_names_not_fileName f hf), hlk]

theorem length_processInvoices_le (gen : GenService) (docs : List SourceDocument) :
    (processInvoices gen docs).length ≤ docs.length :=
  List.length_filterMap_le _ _

theorem processInvoices_cons_ok {gen : GenService} {d : SourceDocument}
    {ds : List SourceDocument} {o : RawObj}
    (he : extractInvoiceData gen d.content = .ok o) :
    processInvoices gen (d :: ds) =
      setKey o "fileName" (.str d.fileName) :: processInvoices gen ds := by
  simp [processInvoices, List.filterMap_cons, he]

theorem processInvoices_cons_error {gen : GenService} {d : SourceDocument}
    {ds : List SourceDocument} {e : String}
    (he : extractInvoiceData gen d.content = .error e) :
    processInvoices gen (d :: ds) = processInvoices gen ds := by
  simp [processInvoices, List.filterMap_cons, he]

theorem length_processInvoices_eq_iff (gen : GenService) (docs : List SourceDocument) :
    (processInvoices gen docs).length = docs.length ↔
      ∀ d ∈ docs, ∃ o, extractInvoiceData gen d.content = .ok o := by
  induction docs with
  | nil => simp [processInvoices]
  | cons d ds ih =>
      cases he : extractInvoiceData gen d.content with
      | ok o =>
          rw [processInvoices_cons_ok he]
          constructor
          · intro h d2 hd2
            rcases List.mem_cons.mp hd2 with hd2 | hd2
            · subst hd2
              exact ⟨o, he⟩
            · have h2 : (processInvoices gen ds).length = ds.length := by
                simp [List.length_cons] at h
                omega
              exact ih.mp h2 d2 hd2
          · intro h
            have h2 := ih.mpr (fun d2 hd2 => h d2 (List.mem_cons_of_mem d hd2))
            simp [List.length_cons, h2]
      | error e =>
          rw [processInvoices_cons_error he]
          constructor
          · intro h
            exfalso
            have hle := length_processInvoices_le gen ds
            simp [List.length_cons] at h
            omega
          · intro h
            rcases h d (List.mem_cons_self d ds) with ⟨o, ho⟩
            rw [he] at ho
            cases ho

/-! ## Claim theorems -/

/-- C1: every record appended to the Batch contains every field declared in
the extraction schema with a value of the declared semantic type, and a
failed extraction yields no record at all (no partial records). -/
theorem c1_batch_records_schema_complete (gen : GenService) (docs : List SourceDocument)
    (r : RawObj) (d : SourceDocument) (e : String) :
    (r ∈ processInvoices gen docs →
      ∀ f ∈ invoiceSchema, ∃ v, lookupV r f.name = some v ∧ valueHasType v f.ty = true) ∧
    (extractInvoiceData gen d.content = .error e → processInvoices gen [d] = []) := by
  constructor
  · exact fun h => mem_processInvoices_conforms h
  · intro he
    rw [processInvoices_cons_error he]
    rfl

theorem c1_witness :
    (∀ f ∈ invoiceSchema, ∃ v,
        lookupV (setKey sampleObj "fileName" (.str "a.pdf")) f.name = some v ∧
          valueHasType v f.ty = true) ∧
    processInvoices genMixedService [⟨"bad", "b.pdf", "invoices/b.pdf"⟩] = [] := by
  have h := c1_batch_records_schema_complete genMixedService
    [⟨"good", "a.pdf", "invoices/a.pdf"⟩]
    (setKey sampleObj "fileName" (.str "a.pdf"))
    ⟨"bad", "b.pdf", "invoices/b.pdf"⟩ "gen failure"
  exact ⟨h.1 (by decide), h.2 (by decide)⟩

/-- C3: an extraction failure on one document never aborts the run: the
failed document is omitted from the Batch while the other documents keep
their results, and the writer is still invoked on the accumulated Batch
(even when every extraction failed). -/
theorem c3_one_failure_never_aborts (gen : GenService) (pre post : List SourceDocument)
    (d : SourceDocument) (e : String) (listing : List String)
    (parse : String → Except String String) (docs : List SourceDocument)
    (hfail : extractInvoiceData gen d.content = .error e)
    (hread : readInvoices listing parse = .ok docs) :
    processInvoices gen (pre ++ d :: post) =
      processInvoices gen pre ++ processInvoices gen post ∧
    runMain (.ok listing) parse gen (fun _ => .ok ()) =
      .ok (writeToCSV (processInvoices gen docs)) := by
  constructor
  · have h1 : processInvoices gen (pre ++ d :: post) =
        processInvoices gen pre ++ processInvoices gen (d :: post) := by
      unfold processInvoices
      rw [List.filterMap_append]
    rw [h1, processInvoices_cons_error hfail]
  · simp [runMain, hread]

theorem c3_witness :
    processInvoices genFailService
        ([] ++ ⟨"bad", "x.pdf", "invoices/x.pdf"⟩ :: []) =
      processInvoices genFailService [] ++ processInvoices genFailService [] ∧
    runMain (.ok ["a.pdf"]) (fun _ => .ok "text") genFailService (fun _ => .ok ()) =
      .ok (writeToCSV (processInvoices genFailService
        [⟨"text", "a.pdf", "invoices/a.pdf"⟩])) :=
  c3_one_failure_never_aborts genFailService [] [] ⟨"bad", "x.pdf", "invoices/x.pdf"⟩
    "gen failure" ["a.pdf"] (fun _ => .ok "text")
    [⟨"text", "a.pdf", "invoices/a.pdf"⟩] (by decide) (by decide)

/-- C4: the writer emits exactly one delimited row per record, columns in
the fixed order fileName, invoiceNumber, issueDate, companyName,
companyAddress, dueDate, totalAmount, currency, customerName,
customerAddress, taxes, and emits no header row: the output has exactly as
many rows as the Batch has records. -/
theorem c4_fixed_columns_no_header (data : List RawObj) :
    writeToCSV data =
      data.map (fun row =>
        [ "fileName", "invoiceNumber", "issueDate", "companyName",
          "companyAddress", "dueDate", "totalAmount", "currency",
          "customerName", "customerAddress", "taxes" ].map (csvCell row)) ∧
    (writeToCSV data).length = data.length :=
  ⟨rfl, by simp [writeToCSV]⟩

/-- C6: the output row count equals the Batch length, which is at most the
number of input documents, with equality exactly when every extraction
succeeds (failed extractions are omitted, not nulled). -/
theorem c6_row_count (gen : GenService) (docs : List SourceDocument) :
    (writeToCSV (processInvoices gen docs)).length = (processInvoices gen docs).length ∧
    (processInvoices gen docs).length ≤ docs.length ∧
    ((processInvoices gen docs).length = docs.length ↔
      ∀ d ∈ docs, ∃ o, extractInvoiceData gen d.content = .ok o) :=
  ⟨by simp [writeToCSV], length_processInvoices_le gen docs,
    length_processInvoices_eq_iff gen docs⟩

/-- C10: the orchestrator sets the appended record's fileName to the source
document's file name, overwriting any model-supplied fileName key (the
spread puts the identifier last), and the writer substitutes the empty
string for a missing or falsy fileName rather than failing. -/
theorem c10_fileName_overwritten (o : RawObj) (d : SourceDocument) (r : RawObj)
    (hok : validateObject o = true) :
    processInvoices (fun _ _ => .ok o) [d] = [setKey o "fileName" (.str d.fileName)] ∧
    lookupV (setKey o "fileName" (.str d.fileName)) "fileName" =
      some (.str d.fileName) ∧
    ((lookupV r "fileName" = none ∨
        ∃ v, lookupV r "fileName" = some v ∧ isFalsy v = true) →
      csvCell r "fileName" = "") := by
  refine ⟨?_, lookupV_setKey_self o "fileName" (.str d.fileName), ?_⟩
  · have he : extractInvoiceData (fun _ _ => .ok o) d.content = .ok o := by
      show retryGenerate (fun _ => .ok o) 0 8 = .ok o
      refine retryGenerate_first_ok (fun _ => .ok o) (fun _ => "") o 8 0 0 (by omega)
        (fun j hj => absurd hj (by omega)) ?_
      show attemptOnce (fun _ => .ok o) (0 + 0) = .ok o
      unfold attemptOnce
      simp [hok]
    rw [processInvoices_cons_ok he]
    rfl
  · intro hv
    unfold csvCell
    rw [lookupV_setKey_self]
    unfold fileNameOr
    rcases hv with hnone | ⟨v, hsome, hfal⟩
    · rw [hnone]
      rfl
    · rw [hsome]
      simp [hfal, cellToString]

/-- A generation response that itself carries a `fileName` key, used to
witness that the orchestrator's spread overwrites it. -/
def modelFileObj : RawObj := ("fileName", Value.str "model-injected.pdf") :: sampleObj

theorem c10_witness :
    processInvoices (fun _ _ => .ok modelFileObj)
        [⟨"text", "real.pdf", "invoices/real.pdf"⟩] =
      [setKey modelFileObj "fileName" (.str "real.pdf")] ∧
    lookupV (setKey modelFileObj "fileName" (.str "real.pdf")) "fileName" =
      some (.str "real.pdf") ∧
    csvCell [] "fileName" = "" := by
  have h := c10_fileName_overwritten modelFileObj
    ⟨"text", "real.pdf", "invoices/real.pdf"⟩ [] (by decide)
  exact ⟨h.1, h.2.1, h.2.2 (Or.inl rfl)⟩

/-- C2 counterexample: when all 8 attempts fail, `extractInvoiceData` fails
with exactly the last underlying service error and nothing else — the error
value carries no document identifier (the function never receives one). -/
theorem c2_counterexample :
    extractInvoiceData (fun _ i => .error ("service failure " ++ toString i))
      "invoice text" = .error "service failure 7" := by decide

/-- C2 (amended): the engine retries the generation call with the same
inputs up to the fixed bound of 8 attempts; if attempts 0 through 7 all
fail, the call fails with the last underlying error, which carries no
document identifier; if an attempt up to the 8th returns a schema-valid
response, the call succeeds with it. -/
theorem c2_retry_bound_last_error (gen : GenService) (content : String)
    (e : Nat → String) (o : RawObj) :
    ((∀ i, i < maxRetries → attemptOnce (gen content) i = .error (e i)) →
      extractInvoiceData gen content = .error (e 7)) ∧
    ((∀ i, i < 7 → attemptOnce (gen content) i = .error (e i)) →
      attemptOnce (gen content) 7 = .ok o →
      extractInvoiceData gen content = .ok o) := by
  constructor
  · intro hall
    show retryGenerate (gen content) 0 8 = .error (e 7)
    have h := retryGenerate_all_fail (gen content) e 8 0 (by omega)
      (fun j hj => by simpa using hall j hj)
    simpa using h
  · intro hfail hok
    show retryGenerate (gen content) 0 8 = .ok o
    refine retryGenerate_first_ok (gen content) e o 8 0 7 (by omega)
      (fun j hj => by simpa using hfail j hj) ?_
    simpa using hok

/-- A generation service that fails the first 7 attempts and returns a
valid response on the 8th. -/
def genSeventhService : GenService := fun _ i =>
  if i < 7 then .error "bad attempt" else .ok sampleObj

theorem c2_witness :
    extractInvoiceData genFailService "invoice text" = .error "gen failure" ∧
    extractInvoiceData genSeventhService "invoice text" = .ok sampleObj := by
  constructor
  · exact (c2_retry_bound_last_error genFailService "invoice text"
      (fun _ => "gen failure") sampleObj).1 (by decide)
  · exact (c2_retry_bound_last_error genSeventhService "invoice text"
      (fun _ => "bad attempt") sampleObj).2 (by decide) (by decide)

/-- C5 counterexample: `readInvoices` preserves directory-listing order and
does not sort: for the listing ["b.pdf", "a.pdf"] the returned sequence has
"b.pdf" before "a.pdf" although "a.pdf" lexicographically precedes it. -/
theorem c5_counterexample :
    readInvoices ["b.pdf", "a.pdf"] (fun _ => .ok "text") =
      .ok [⟨"text", "b.pdf", "invoices/b.pdf"⟩,
           ⟨"text", "a.pdf", "invoices/a.pdf"⟩] ∧
    lexLe "a.pdf" "b.pdf" = true ∧
    lexLe "b.pdf" "a.pdf" = false := by decide

/-- C5 (amended): `readInvoices` returns a SourceDocument for exactly the
files of the listing whose extension matches ".pdf" case-insensitively,
ignoring all others, in directory-listing order — deterministic given the
listing, but not sorted lexicographically. -/
theorem c5_pdf_filter_listing_order (listing : List String)
    (parse : String → Except String String) (texts : String → String)
    (hp : ∀ f, parse f = .ok (texts f)) :
    readInvoices listing parse =
      .ok ((listing.filter pdfExtension).map (fun f =>
        ⟨texts f, f, invoiceDir ++ "/" ++ f⟩)) := by
  unfold readInvoices
  generalize (listing.filter pdfExtension) = l
  induction l with
  | nil => rfl
  | cons f fs ih =>
      simp only [List.mapM_cons, hp f, ih]
      rfl

theorem c5_witness :
    readInvoices ["B.PDF", "notes.txt", "a.pdf"] (fun f => .ok ("text of " ++ f)) =
      .ok [⟨"text of B.PDF", "B.PDF", "invoices/B.PDF"⟩,
           ⟨"text of a.pdf", "a.pdf", "invoices/a.pdf"⟩] := by
  have h := c5_pdf_filter_listing_order ["B.PDF", "notes.txt", "a.pdf"]
    (fun f => .ok ("text of " ++ f)) (fun f => "text of " ++ f) (fun _ => rfl)
  exact h.trans (by decide)

/-- C7 counterexample: a schema-valid response whose taxes is the number
-1 passes validation and its record enters the Batch — nothing in the code
enforces taxes ≥ 0. -/
theorem c7_counterexample :
    validateObject negTaxObj = true ∧
    processInvoices (fun _ _ => .ok negTaxObj)
        [⟨"text", "inv.pdf", "invoices/inv.pdf"⟩] =
      [setKey negTaxObj "fileName" (.str "inv.pdf")] ∧
    lookupV (setKey negTaxObj "fileName" (.str "inv.pdf")) "taxes" =
      some (.num (-1)) ∧
    ((-1 : ℚ) < 0) := by
  refine ⟨by decide, by decide, by decide, by norm_num⟩

/-- C7 (amended): in every successful ExtractionResult the taxes field is
present and is a number (never absent or null); the nonnegativity and the
zero-when-no-tax behavior are only steered by the schema description, not
enforced by validation. -/
theorem c7_taxes_present_number (gen : GenService) (docs : List SourceDocument)
    (r : RawObj) (h : r ∈ processInvoices gen docs) :
    ∃ q : ℚ, lookupV r "taxes" = some (.num q) := by
  have hc := mem_processInvoices_conforms h
    ⟨"taxes", SType.num,
      "The total amount of taxes applied to the invoice, just return 0 if no taxes are applied"⟩
    (by decide)
  rcases hc with ⟨v, hlk, hty⟩
  cases v with
  | num q => exact ⟨q, hlk⟩
  | str s => simp [valueHasType] at hty
  | null => simp [valueHasType] at hty

theorem c7_witness :
    ∃ q : ℚ, lookupV (setKey sampleObj "fileName" (.str "a.pdf")) "taxes" =
      some (.num q) :=
  c7_taxes_present_number (fun _ _ => .ok sampleObj)
    [⟨"text", "a.pdf", "invoices/a.pdf"⟩]
    (setKey sampleObj "fileName" (.str "a.pdf")) (by decide)

/-- C8 counterexample: a response whose invoiceNumber contains the
characters # and * passes schema validation and an ExtractionResult with
that invoiceNumber is produced — the forbidden-character rule lives only in
the description text sent to the model. -/
theorem c8_counterexample :
    validateObject specialCharObj = true ∧
    extractInvoiceData (fun _ _ => .ok specialCharObj) "document text" =
      .ok specialCharObj ∧
    lookupV specialCharObj "invoiceNumber" = some (.str "#INV*001") ∧
    '#' ∈ "#INV*001".toList ∧ '*' ∈ "#INV*001".toList := by decide

/-- C8 (amended): schema validation checks only that invoiceNumber is a
string; any invoiceNumber string — forbidden characters included — passes
validation and yields an ExtractionResult. -/
theorem c8_validation_ignores_forbidden_chars (s : String) :
    validateObject (responseWithInvoiceNumber s) = true ∧
    extractInvoiceData (fun _ _ => .ok (responseWithInvoiceNumber s))
      "document text" = .ok (responseWithInvoiceNumber s) :=
  ⟨rfl, rfl⟩

/-- C9 counterexample: a pdf parse failure on a single file also aborts the
run with no output produced, although neither the directory read nor the
output write failed. -/
theorem c9_counterexample :
    runMain (.ok ["a.pdf"]) (fun _ => .error "pdf parse failed")
      (fun _ _ => .ok sampleObj) (fun _ => .ok ()) =
      .error "pdf parse failed" := by decide

/-- C9 (amended): a directory read failure, a pdf read/parse failure, or
an output write failure aborts the run without output; in every other case
the run completes and writes the accumulated rows, however many individual
extractions failed. -/
theorem c9_abort_conditions (listing : List String)
    (parse : String → Except String String) (gen : GenService)
    (write : List (List String) → Except String Unit) (e : String)
    (docs : List SourceDocument) :
    (runMain (.error e) parse gen write = .error e) ∧
    (readInvoices listing parse = .error e →
      runMain (.ok listing) parse gen write = .error e) ∧
    (readInvoices listing parse = .ok docs →
      write (writeToCSV (processInvoices gen docs)) = .error e →
      runMain (.ok listing) parse gen write = .error e) ∧
    (readInvoices listing parse = .ok docs →
      write (writeToCSV (processInvoices gen docs)) = .ok () →
      runMain (.ok listing) parse gen write =
        .ok (writeToCSV (processInvoices gen docs))) := by
  refine ⟨rfl, ?_, ?_, ?_⟩
  · intro hr
    simp [runMain, hr]
  · intro hr hw
    simp [runMain, hr, hw]
  · intro hr hw
    simp [runMain, hr, hw]

theorem c9_witness :
    runMain (.ok ["a.pdf", "b.pdf"]) (fun f => .ok ("text " ++ f)) genFailService
        (fun _ => .ok ()) =
      .ok (writeToCSV (processInvoices genFailService
        [⟨"text a.pdf", "a.pdf", "invoices/a.pdf"⟩,
         ⟨"text b.pdf", "b.pdf", "invoices/b.pdf"⟩])) :=
  (c9_abort_conditions ["a.pdf", "b.pdf"] (fun f => .ok ("text " ++ f))
    genFailService (fun _ => .ok ()) "unused"
    [⟨"text a.pdf", "a.pdf", "invoices/a.pdf"⟩,
     ⟨"text b.pdf", "b.pdf", "invoices/b.pdf"⟩]).2.2.2 (by decide) rfl

end InvoiceMapper
